import Mathlib

/-!
Shallow embedding of the core of `go-socks5-chain` (a SOCKS5-to-SOCKS5 relay
with an encrypted credential store) and proofs about it.

Go byte slices and Go strings are both modelled as `List Nat` with every
element below 256 (`IsBytes`).  Network connections are modelled by passing
the byte stream readable from the peer as an explicit input list and
collecting the bytes written to the peer as an explicit output list; a read
of `n` bytes with `io.ReadFull` succeeds exactly when `n` bytes remain.

The repository's own code (`config/config.go`, `proxy/proxy.go`) is
translated function by function.  Go standard-library primitives that the
repository calls (SHA-256, AES-GCM, base64, JSON, `net.IP.String`,
`net.SplitHostPort`, `fmt.Sscanf`) are either implemented faithfully
(base64, IP formatting, host/port splitting, decimal scanning) or, for the
cryptographic and serialization primitives whose bit-level behaviour is
irrelevant to every claim, modelled as ideal primitives following the
spec's contract; each such model carries a doc comment saying so.
-/

namespace Socks5Chain

/-- A Go byte slice / Go string: every element is a byte value. -/
def IsBytes (l : List Nat) : Prop := ∀ b ∈ l, b < 256

instance (l : List Nat) : Decidable (IsBytes l) := by
  unfold IsBytes; infer_instance

/-! ### Ideal models of Go standard-library crypto primitives -/

/-- Modelled from the spec: `crypto/sha256.Sum256` (outside this repository)
derives the AES key from the passphrase; the spec requires only that it is a
one-way key derivation under which a wrong passphrase fails authentication,
so it is idealized as an injective (here: identity) function of the
passphrase bytes. -/
def sha256Key (password : List Nat) : List Nat := password

/-- `gcm.NonceSize()` for AES-GCM in the Go standard library. -/
def nonceSize : Nat := 12

/-- Fixed-width little-endian base-256 encoding, `w` digits. -/
def lenEnc : Nat → Nat → List Nat
  | 0, _ => []
  | w + 1, n => n % 256 :: lenEnc w (n / 256)

/-- Decode of `lenEnc`. -/
def lenDec (l : List Nat) : Nat := l.foldr (fun b acc => b + 256 * acc) 0

/-- Modelled from the spec: the authentication data an ideal AEAD binds into
the sealed blob — the key and the nonce, length-delimited. `cipher.AEAD` from
`crypto/cipher` is outside this repository; the spec requires that the blob
"must fail authentication" under a wrong passphrase, so sealing is idealized
as tagging the plaintext with the key and nonce. -/
def gcmTag (key nonce : List Nat) : List Nat :=
  lenEnc 8 key.length ++ key ++ nonce

/-- Modelled from the spec: ideal `gcm.Seal(nil, nonce, data, nil)` — the tag
binds key and nonce, followed by the payload. -/
def gcmSeal (key nonce data : List Nat) : List Nat :=
  gcmTag key nonce ++ data

/-- Modelled from the spec: ideal `gcm.Open(nil, nonce, ciphertext, nil)` —
succeeds exactly when the sealed tag matches this key and nonce. -/
def gcmOpen (key nonce ct : List Nat) : Option (List Nat) :=
  if ct.take (gcmTag key nonce).length = gcmTag key nonce then
    some (ct.drop (gcmTag key nonce).length)
  else
    none

/-! ### base64 (`encoding/base64` StdEncoding, implemented faithfully) -/

/-- The standard base64 alphabet, as ASCII byte values. -/
def sixToChar (n : Nat) : Nat :=
  if n < 26 then 65 + n
  else if n < 52 then 97 + (n - 26)
  else if n < 62 then 48 + (n - 52)
  else if n = 62 then 43
  else 47

/-- Inverse of the base64 alphabet; `none` on a byte outside the alphabet. -/
def charToSix (c : Nat) : Option Nat :=
  if 65 ≤ c ∧ c ≤ 90 then some (c - 65)
  else if 97 ≤ c ∧ c ≤ 122 then some (c - 97 + 26)
  else if 48 ≤ c ∧ c ≤ 57 then some (c - 48 + 52)
  else if c = 43 then some 62
  else if c = 47 then some 63
  else none

/-- `base64.StdEncoding.EncodeToString`: 3-byte groups become 4 alphabet
bytes, a final 1- or 2-byte group is padded with `=` (61). -/
def base64encode : List Nat → List Nat
  | [] => []
  | [b0] => [sixToChar (b0 / 4), sixToChar (b0 % 4 * 16), 61, 61]
  | [b0, b1] =>
    [sixToChar (b0 / 4), sixToChar (b0 % 4 * 16 + b1 / 16),
     sixToChar (b1 % 16 * 4), 61]
  | b0 :: b1 :: b2 :: rest =>
    sixToChar (b0 / 4) :: sixToChar (b0 % 4 * 16 + b1 / 16) ::
    sixToChar (b1 % 16 * 4 + b2 / 64) :: sixToChar (b2 % 64) ::
    base64encode rest

/-- `base64.StdEncoding.DecodeString`: input length must be a multiple of 4,
padding may occur only in the final quantum, bytes outside the alphabet are
rejected; like Go's default (non-strict) mode, trailing bits of a padded
final quantum are not checked. -/
def base64decode : List Nat → Option (List Nat)
  | [] => some []
  | c0 :: c1 :: c2 :: c3 :: rest =>
    match charToSix c0, charToSix c1 with
    | some s0, some s1 =>
      if c2 = 61 then
        if c3 = 61 ∧ rest = [] then some [s0 * 4 + s1 / 16] else none
      else
        match charToSix c2 with
        | some s2 =>
          if c3 = 61 then
            if rest = [] then some [s0 * 4 + s1 / 16, s1 % 16 * 16 + s2 / 4]
            else none
          else
            match charToSix c3 with
            | some s3 =>
              (base64decode rest).map
                (fun ds => (s0 * 4 + s1 / 16) :: (s1 % 16 * 16 + s2 / 4) ::
                           (s2 % 4 * 64 + s3) :: ds)
            | none => none
        | none => none
    | _, _ => none
  | _ => none

/-! ### config/config.go: encrypt / decrypt -/

/-- `config.encrypt(data, password)`.  The random nonce drawn from
`crypto/rand` is passed explicitly; `gcm.Seal(nonce, nonce, data, nil)`
appends the sealed blob to the nonce, and the result is base64-encoded. -/
def encrypt (data password nonce : List Nat) : List Nat :=
  base64encode (nonce ++ gcmSeal (sha256Key password) nonce data)

/-- `config.decrypt(encData, password)`: base64-decode, reject anything
shorter than one nonce, split off the nonce, then authenticated open. -/
def decrypt (encData password : List Nat) : Option (List Nat) :=
  match base64decode encData with
  | none => none
  | some data =>
    if data.length < nonceSize then none
    else gcmOpen (sha256Key password) (data.take nonceSize) (data.drop nonceSize)

/-! ### Decimal and hexadecimal formatting (`fmt.Sprintf` %d, `appendHex`) -/

/-- Little-endian decimal digits of `n`; the first argument is fuel (any
value at least `n` is enough since `n / 10 < n` for `n > 0`). -/
def decDigitsAux : Nat → Nat → List Nat
  | 0, _ => []
  | fuel + 1, n => if n = 0 then [] else n % 10 :: decDigitsAux fuel (n / 10)

/-- `fmt.Sprintf("%d", n)` for a non-negative integer, as ASCII bytes. -/
def natToDec (n : Nat) : List Nat :=
  if n = 0 then [48] else (decDigitsAux n n).reverse.map (fun d => 48 + d)

/-- `fmt.Sscanf(s, "%d", &n)` on a digit string: scans the leading run of
ASCII digits (an empty run leaves the target at its zero value, matching the
Go code's pre-initialized `portNum := 0`). -/
def sscanfDec (s : List Nat) : Nat :=
  (s.takeWhile (fun c => decide (48 ≤ c) && decide (c ≤ 57))).foldl
    (fun a c => a * 10 + (c - 48)) 0

/-- Lowercase hex digit as an ASCII byte. -/
def hexDigitChar (d : Nat) : Nat := if d < 10 then 48 + d else 87 + d

/-- Little-endian hex digits of `n`, fuel-driven like `decDigitsAux`. -/
def hexDigitsAux : Nat → Nat → List Nat
  | 0, _ => []
  | fuel + 1, n => if n = 0 then [] else n % 16 :: hexDigitsAux fuel (n / 16)

/-- `appendHex` from net/ip.go: lowercase hex, no leading zeros, 0 is "0". -/
def natToHex (n : Nat) : List Nat :=
  if n = 0 then [48] else (hexDigitsAux n n).reverse.map hexDigitChar

/-! ### `net.IP.String` (implemented faithfully for 4- and 16-byte IPs) -/

/-- Dotted-decimal rendering of a 4-byte IPv4 address. -/
def ipv4Dotted (bs : List Nat) : List Nat :=
  match bs with
  | [a, b, c, d] =>
    natToDec a ++ [46] ++ natToDec b ++ [46] ++ natToDec c ++ [46] ++ natToDec d
  | _ => []

/-- `IP.To4` applicability for a 16-byte IP: the v4-mapped form
`::ffff:a.b.c.d` (first 10 bytes zero, then two 0xff bytes). -/
def isV4Mapped (bs : List Nat) : Bool :=
  (bs.take 10).all (fun b => b = 0) && (bs.getD 10 0 = 255) && (bs.getD 11 0 = 255)

/-- The eight 16-bit groups of a 16-byte IPv6 address, big-endian. -/
def v6groups : List Nat → List Nat
  | b0 :: b1 :: rest => (b0 <<< 8 ||| b1) :: v6groups rest
  | _ => []

/-- Number of consecutive zero groups starting at group index `i`. -/
def zeroRunLen (gs : List Nat) (i : Nat) : Nat :=
  ((gs.drop i).takeWhile (fun g => g = 0)).length

/-- The zero-compression window of net/ip.go's String: the leftmost longest
run of zero groups (strict improvement only, exactly as in the source), kept
only if it spans at least two groups; `(9, 9)` means no compression. -/
def zeroRun (gs : List Nat) : Nat × Nat :=
  let best := (List.range 8).foldl
    (fun (best : Nat × Nat) i =>
      let r := zeroRunLen gs i
      if 0 < r ∧ best.2 < r then (i, r) else best)
    (9, 0)
  if 2 ≤ best.2 then (best.1, best.1 + best.2) else (9, 9)

/-- The group-emitting loop of net/ip.go's String: at `e0` emit `::`, jump
to `e1` and (if still in range) emit that group next with no extra colon;
otherwise separate groups with `:`. Fuel 16 covers the at most 9 steps. -/
def v6emit (gs : List Nat) (e0 e1 : Nat) : Nat → Nat → List Nat
  | _, 0 => []
  | i, fuel + 1 =>
    if 8 ≤ i then []
    else if i = e0 then
      58 :: 58 ::
        (if 8 ≤ e1 then []
         else natToHex (gs.getD e1 0) ++ v6emit gs e0 e1 (e1 + 1) fuel)
    else
      (if i = 0 then [] else [58]) ++ natToHex (gs.getD i 0) ++
        v6emit gs e0 e1 (i + 1) fuel

/-- `net.IP.String()` for the lengths this program produces (4 and 16); the
16-byte case first tries `To4` (v4-mapped addresses print dotted-decimal)
and otherwise prints RFC 5952 form with `::` compression. Other lengths do
not occur in this program. -/
def ipString (bs : List Nat) : List Nat :=
  if bs.length = 4 then ipv4Dotted bs
  else if bs.length = 16 then
    if isV4Mapped bs then ipv4Dotted (bs.drop 12)
    else
      let gs := v6groups bs
      let p := zeroRun gs
      v6emit gs p.1 p.2 0 16
  else []

/-! ### proxy/proxy.go -/

/-- `io.ReadFull(conn, make([]byte, n))`: succeeds with the first `n` bytes
and the remaining stream exactly when `n` bytes are available. -/
def readN (n : Nat) (s : List Nat) : Option (List Nat × List Nat) :=
  if n ≤ s.length then some (s.take n, s.drop n) else none

/-- Go's `byte(x)` conversion. -/
def toByte (n : Nat) : Nat := n % 256

/-- `Server.handleInitialHandshake`: returns the unread remainder of the
client stream on success (`none` on failure) together with the bytes
written to the client. -/
def handleInitialHandshake (s : List Nat) : Option (List Nat) × List Nat :=
  match readN 2 s with
  | none => (none, [])
  | some (header, s1) =>
    if header.getD 0 0 ≠ 5 then (none, [])
    else
      match readN (header.getD 1 0) s1 with
      | none => (none, [])
      | some (_, s2) => (some s2, [5, 0])

/-- `Server.handleRequest`: returns (`target`, unread remainder) on success
(`none` on failure) together with the bytes written to the client. The
success reply is the 10-byte `{5,0,0,1,0,0,0,0,0,0}`. -/
def handleRequest (s : List Nat) : Option (List Nat × List Nat) × List Nat :=
  match readN 4 s with
  | none => (none, [])
  | some (header, s1) =>
    if header.getD 0 0 ≠ 5 then (none, [])
    else
      match (match header.getD 3 0 with
             | 1 => (readN 4 s1).map (fun p => (ipString p.1, p.2))
             | 3 =>
               match readN 1 s1 with
               | none => none
               | some (lenByte, s2) =>
                 (readN (lenByte.getD 0 0) s2).map (fun p => (p.1, p.2))
             | 4 => (readN 16 s1).map (fun p => (ipString p.1, p.2))
             | _ => none) with
      | none => (none, [])
      | some (addr, s2) =>
        match readN 2 s2 with
        | none => (none, [])
        | some (portBytes, s3) =>
          let port := portBytes.getD 0 0 <<< 8 ||| portBytes.getD 1 0
          (some (addr ++ [58] ++ natToDec port, s3), [5, 0, 0, 1, 0, 0, 0, 0, 0, 0])

/-- `config.Config`: the resolved connection parameters shared by every
connection handler. Go strings are byte lists; `UpstreamPort` is a Go int. -/
structure Config where
  username : List Nat
  password : List Nat
  upstreamHost : List Nat
  upstreamPort : Int
  deriving DecidableEq

/-- `Server.connectToUpstream`, after the TCP dial: writes the method offer
`{5,1,2}`, reads the 2-byte method selection (never inspected), writes the
RFC 1929 sub-negotiation, reads the 2-byte auth reply and fails exactly when
its second byte is non-zero. Input is the byte stream readable from the
upstream; output is (result, all bytes written to the upstream). -/
def connectToUpstream (cfg : Config) (fromUpstream : List Nat) :
    Option Unit × List Nat :=
  let hello := [5, 1, 2]
  match readN 2 fromUpstream with
  | none => (none, hello)
  | some (_, s1) =>
    let auth := 1 :: toByte cfg.username.length :: cfg.username ++
                toByte cfg.password.length :: cfg.password
    match readN 2 s1 with
    | none => (none, hello ++ auth)
    | some (authResponse, _) =>
      if authResponse.getD 1 0 ≠ 0 then (none, hello ++ auth)
      else (some (), hello ++ auth)

/-- `net.SplitHostPort` (net/ipsock.go, implemented faithfully): split at
the last colon; a bracketed host `[...]` must end right before it; an
unbracketed host may not contain a colon; stray brackets are rejected. All
error cases collapse to `none`. -/
def splitHostPort (hostport : List Nat) : Option (List Nat × List Nat) :=
  match (hostport.reverse).findIdx? (fun b => b = 58) with
  | none => none
  | some r =>
    let i := hostport.length - 1 - r
    if hostport.getD 0 0 = 91 then
      match hostport.findIdx? (fun b => b = 93) with
      | none => none
      | some e =>
        if e + 1 = hostport.length then none
        else if e + 1 = i then
          if (hostport.drop 1).contains 91 then none
          else if (hostport.drop (e + 1)).contains 93 then none
          else some ((hostport.drop 1).take (e - 1), hostport.drop (i + 1))
        else none
    else
      if (hostport.take i).contains 58 then none
      else if hostport.contains 91 then none
      else if hostport.contains 93 then none
      else some (hostport.take i, hostport.drop (i + 1))

/-- `Server.forwardRequest`: split the recorded target, build the
domain-style CONNECT request `{5,1,0,3, len(host), host, portHi, portLo}`,
write it, then read the upstream's 10-byte reply and fail when its second
byte is non-zero. Output is (result, bytes written to the upstream). -/
def forwardRequest (target fromUpstream : List Nat) : Option Unit × List Nat :=
  match splitHostPort target with
  | none => (none, [])
  | some (host, port) =>
    let portNum := sscanfDec port
    let request := [5, 1, 0, 3] ++ [toByte host.length] ++ host ++
                   [toByte (portNum >>> 8), toByte (portNum &&& 255)]
    match readN 10 fromUpstream with
    | none => (none, request)
    | some (response, _) =>
      if response.getD 1 0 ≠ 0 then (none, request)
      else (some (), request)

/-! ### config/config.go: LoadOrCreate -/

/-- The error outcomes of `config.LoadOrCreate`;
`encryptionPasswordRequired` is the distinguished
`config.ErrEncryptionPasswordRequired` value, all others are the distinct
`fmt.Errorf` failures of the source. -/
inductive CfgError where
  | encryptionPasswordRequired
  | decryptFailed
  | unmarshalFailed
  | configParseFailed
  | hostPortRequired
  | userPassRequired
  deriving DecidableEq

/-- The anonymous `hostConfig` struct of config.go: the unencrypted
host/port record. -/
structure HostRecord where
  upstreamHost : List Nat
  upstreamPort : Int
  deriving DecidableEq

/-- The on-disk state `LoadOrCreate` reads and writes. `creds` is the raw
content of `upstream_creds.enc` when that file exists. `hostCfg` is the
content of `upstream_config` when it exists, abstracted to its JSON parse
result (`none` inside = file present but unparsable). -/
structure FsState where
  creds : Option (List Nat)
  hostCfg : Option (Option HostRecord)
  deriving DecidableEq

/-- Modelled from the spec: `json.Marshal` of the credential record
(encoding/json is outside this repository); an injective length-delimited
serialization of the four fields. -/
def marshalConfig (c : Config) : List Nat :=
  lenEnc 8 c.username.length ++ c.username ++
  lenEnc 8 c.password.length ++ c.password ++
  lenEnc 8 c.upstreamHost.length ++ c.upstreamHost ++
  (if c.upstreamPort < 0 then [1] else [0]) ++ lenEnc 8 c.upstreamPort.natAbs

/-- Reads one length-delimited field of `marshalConfig`. -/
def readField (bs : List Nat) : Option (List Nat × List Nat) :=
  if 8 ≤ bs.length then
    let n := lenDec (bs.take 8)
    let rest := bs.drop 8
    if n ≤ rest.length then some (rest.take n, rest.drop n) else none
  else none

/-- Modelled from the spec: `json.Unmarshal` into the credential record;
decodes `marshalConfig` and rejects anything else malformed. -/
def unmarshalConfig (bs : List Nat) : Option Config :=
  match readField bs with
  | none => none
  | some (u, r1) =>
    match readField r1 with
    | none => none
    | some (p, r2) =>
      match readField r2 with
      | none => none
      | some (h, r3) =>
        match r3 with
        | sign :: r4 =>
          if r4.length = 8 then
            let mag : Int := Int.ofNat (lenDec r4)
            some ⟨u, p, h, if sign = 1 then -mag else mag⟩
          else none
        | [] => none

/-- The credential-loading head of `LoadOrCreate`: if the encrypted
credential record exists, an empty passphrase is the distinguished error,
then decryption and parsing must both succeed; with no credential record
the zero-value `Config` is used. -/
def loadCreds (fs : FsState) (encpass : List Nat) : Except CfgError Config :=
  match fs.creds with
  | some encData =>
    if encpass = [] then Except.error CfgError.encryptionPasswordRequired
    else
      match decrypt encData encpass with
      | none => Except.error CfgError.decryptFailed
      | some data =>
        match unmarshalConfig data with
        | none => Except.error CfgError.unmarshalFailed
        | some c => Except.ok c
  | none => Except.ok ⟨[], [], [], 0⟩

/-- The host/port-record merge of `LoadOrCreate`: fields from the
unencrypted record fill only still-empty fields. -/
def mergeHostRecord (fs : FsState) (cfg : Config) : Except CfgError Config :=
  match fs.hostCfg with
  | some none => Except.error CfgError.configParseFailed
  | some (some hr) =>
    let c1 := if cfg.upstreamHost = [] then { cfg with upstreamHost := hr.upstreamHost } else cfg
    Except.ok (if c1.upstreamPort = 0 then { c1 with upstreamPort := hr.upstreamPort } else c1)
  | none => Except.ok cfg

/-- The override block of `config.LoadOrCreate`: each supplied value, when
non-zero, replaces the loaded one. -/
def applyOverrides (username password upstreamHost : List Nat) (upstreamPort : Int)
    (cfg1 : Config) : Config :=
  let c2 := if upstreamHost ≠ [] then { cfg1 with upstreamHost := upstreamHost } else cfg1
  let c3 := if upstreamPort ≠ 0 then { c2 with upstreamPort := upstreamPort } else c2
  let c4 := if username ≠ [] then { c3 with username := username } else c3
  if password ≠ [] then { c4 with password := password } else c4

/-- The validate/persist tail of `config.LoadOrCreate`: all four fields are
validated, then the host record is always rewritten and the credential
record is rewritten exactly when a passphrase was supplied. -/
def validateAndSave (fs : FsState) (encpass nonce : List Nat) (c5 : Config) :
    Except CfgError (Config × FsState) :=
  if c5.upstreamHost = [] ∨ c5.upstreamPort = 0 then
    Except.error CfgError.hostPortRequired
  else if c5.username = [] ∨ c5.password = [] then
    Except.error CfgError.userPassRequired
  else
    let fs1 : FsState := { fs with hostCfg := some (some ⟨c5.upstreamHost, c5.upstreamPort⟩) }
    let fs2 := if encpass ≠ [] then
      { fs1 with creds := some (encrypt (marshalConfig c5) encpass nonce) } else fs1
    Except.ok (c5, fs2)

/-- The override/validate/persist tail of `config.LoadOrCreate`. -/
def applyOverridesAndSave (fs : FsState) (username password encpass upstreamHost : List Nat)
    (upstreamPort : Int) (nonce : List Nat) (cfg1 : Config) :
    Except CfgError (Config × FsState) :=
  validateAndSave fs encpass nonce (applyOverrides username password upstreamHost upstreamPort cfg1)

/-- `config.LoadOrCreate(username, password, encpass, upstreamHost,
upstreamPort)`. The filesystem is passed in and returned explicitly and the
random nonce used when re-encrypting is an explicit argument; file reads
and writes themselves are modelled as succeeding. -/
def LoadOrCreate (fs : FsState) (username password encpass upstreamHost : List Nat)
    (upstreamPort : Int) (nonce : List Nat) : Except CfgError (Config × FsState) :=
  match loadCreds fs encpass with
  | Except.error e => Except.error e
  | Except.ok cfg0 =>
    match mergeHostRecord fs cfg0 with
    | Except.error e => Except.error e
    | Except.ok cfg1 =>
      applyOverridesAndSave fs username password encpass upstreamHost upstreamPort nonce cfg1

/-! ### Supporting lemmas: base64 -/

theorem charToSix_sixToChar : ∀ n, n < 64 → charToSix (sixToChar n) = some n := by decide

theorem sixToChar_ne_pad : ∀ n, n < 64 → sixToChar n ≠ 61 := by decide

theorem base64_roundtrip (bs : List Nat) (h : IsBytes bs) :
    base64decode (base64encode bs) = some bs := by
  induction bs using base64encode.induct with
  | case1 => rfl
  | case2 b0 =>
    have h0 : b0 < 256 := h b0 (by simp)
    have e1 := charToSix_sixToChar (b0 / 4) (by omega)
    have e2 := charToSix_sixToChar (b0 % 4 * 16) (by omega)
    simp only [base64encode, base64decode, e1, e2]
    simp
    omega
  | case3 b0 b1 =>
    have h0 : b0 < 256 := h b0 (by simp)
    have h1 : b1 < 256 := h b1 (by simp)
    have e1 := charToSix_sixToChar (b0 / 4) (by omega)
    have e2 := charToSix_sixToChar (b0 % 4 * 16 + b1 / 16) (by omega)
    have e3 := charToSix_sixToChar (b1 % 16 * 4) (by omega)
    have ne2 := sixToChar_ne_pad (b1 % 16 * 4) (by omega)
    simp only [base64encode, base64decode, e1, e2, e3, if_neg ne2]
    simp
    omega
  | case4 b0 b1 b2 rest ih =>
    have h0 : b0 < 256 := h b0 (by simp)
    have h1 : b1 < 256 := h b1 (by simp)
    have h2 : b2 < 256 := h b2 (by simp)
    have hrest : IsBytes rest := by
      intro x hx; exact h x (by simp [hx])
    have e1 := charToSix_sixToChar (b0 / 4) (by omega)
    have e2 := charToSix_sixToChar (b0 % 4 * 16 + b1 / 16) (by omega)
    have e3 := charToSix_sixToChar (b1 % 16 * 4 + b2 / 64) (by omega)
    have e4 := charToSix_sixToChar (b2 % 64) (by omega)
    have ne3 := sixToChar_ne_pad (b1 % 16 * 4 + b2 / 64) (by omega)
    have ne4 := sixToChar_ne_pad (b2 % 64) (by omega)
    simp only [base64encode, base64decode, e1, e2, e3, e4, if_neg ne3, if_neg ne4, ih hrest]
    simp
    omega

/-! ### Supporting lemmas: length encoding and the ideal AEAD -/

theorem lenEnc_length (w n : Nat) : (lenEnc w n).length = w := by
  induction w generalizing n with
  | zero => rfl
  | succ w ih => simp [lenEnc, ih]

theorem lenDec_cons (a : Nat) (l : List Nat) : lenDec (a :: l) = a + 256 * lenDec l := rfl

theorem lenDec_lenEnc (w n : Nat) (h : n < 256 ^ w) : lenDec (lenEnc w n) = n := by
  induction w generalizing n with
  | zero =>
    simp [pow_zero] at h
    simp [lenEnc, lenDec, h]
  | succ w ih =>
    have hd : n / 256 < 256 ^ w := by
      rw [Nat.div_lt_iff_lt_mul (by norm_num)]
      calc n < 256 ^ (w + 1) := h
        _ = 256 ^ w * 256 := by ring
    rw [lenEnc, lenDec_cons, ih _ hd]
    omega

theorem isBytes_lenEnc (w n : Nat) : IsBytes (lenEnc w n) := by
  induction w generalizing n with
  | zero => intro b hb; simp [lenEnc] at hb
  | succ w ih =>
    intro b hb
    simp only [lenEnc, List.mem_cons] at hb
    rcases hb with h | h
    · omega
    · exact ih _ b h

theorem isBytes_append {l1 l2 : List Nat} : IsBytes (l1 ++ l2) ↔ IsBytes l1 ∧ IsBytes l2 := by
  simp [IsBytes, List.mem_append, or_imp, forall_and]

theorem gcmOpen_gcmSeal (key nonce data : List Nat) :
    gcmOpen key nonce (gcmSeal key nonce data) = some data := by
  simp [gcmOpen, gcmSeal, List.take_left, List.drop_left]

theorem gcmOpen_wrong_key (k1 k2 nonce data : List Nat) (hne : k1 ≠ k2)
    (h1 : k1.length < 256 ^ 8) (h2 : k2.length < 256 ^ 8) :
    gcmOpen k2 nonce (gcmSeal k1 nonce data) = none := by
  unfold gcmOpen
  rw [if_neg]
  intro heq
  have h8 : (8 : Nat) ≤ (gcmTag k2 nonce).length := by
    simp [gcmTag, lenEnc_length]
  have hL : lenEnc 8 k1.length = lenEnc 8 k2.length := by
    have h48 := congrArg (List.take 8) heq
    rw [List.take_take, min_eq_left h8] at h48
    rw [show gcmSeal k1 nonce data = lenEnc 8 k1.length ++ (k1 ++ (nonce ++ data)) by
          simp [gcmSeal, gcmTag]] at h48
    rw [show gcmTag k2 nonce = lenEnc 8 k2.length ++ (k2 ++ nonce) by
          simp [gcmTag]] at h48
    rw [List.take_left' (lenEnc_length 8 _), List.take_left' (lenEnc_length 8 _)] at h48
    exact h48
  have hKl : k1.length = k2.length := by
    have hdd := congrArg lenDec hL
    rwa [lenDec_lenEnc _ _ h1, lenDec_lenEnc _ _ h2] at hdd
  have htag : (gcmTag k2 nonce).length = (gcmTag k1 nonce).length := by
    simp [gcmTag, lenEnc_length, hKl]
  rw [htag, show gcmSeal k1 nonce data = gcmTag k1 nonce ++ data from rfl,
      List.take_left] at heq
  apply hne
  have heq2 : lenEnc 8 k1.length ++ (k1 ++ nonce) = lenEnc 8 k2.length ++ (k2 ++ nonce) := by
    simpa [gcmTag, List.append_assoc] using heq
  rw [hL] at heq2
  have heq3 := List.append_cancel_left heq2
  exact List.append_cancel_right heq3


/-! ### Supporting lemmas: decimal formatting, request parsing, host/port splitting -/

theorem decDigitsAux_lt10 : ∀ f n d, d ∈ decDigitsAux f n → d < 10 := by
  intro f
  induction f with
  | zero => intro n d hd; simp [decDigitsAux] at hd
  | succ f ih =>
    intro n d hd
    by_cases h : n = 0
    · simp [decDigitsAux, h] at hd
    · simp only [decDigitsAux, if_neg h, List.mem_cons] at hd
      rcases hd with h1 | h1
      · omega
      · exact ih _ _ h1

theorem ofDigits_decDigitsAux : ∀ f n, n ≤ f → Nat.ofDigits 10 (decDigitsAux f n) = n := by
  intro f
  induction f with
  | zero => intro n hn; interval_cases n; rfl
  | succ f ih =>
    intro n hn
    by_cases h : n = 0
    · simp [decDigitsAux, h]
    · rw [decDigitsAux, if_neg h, Nat.ofDigits_cons, ih (n / 10) (by omega)]
      omega

theorem foldl_digits (ds : List Nat) (a : Nat) :
    (ds.reverse.map (fun d => 48 + d)).foldl (fun acc c => acc * 10 + (c - 48)) a
      = a * 10 ^ ds.length + Nat.ofDigits 10 ds := by
  induction ds generalizing a with
  | nil => simp
  | cons d t ih =>
    simp only [List.reverse_cons, List.map_append, List.foldl_append, List.map_cons,
      List.map_nil, List.foldl_cons, List.foldl_nil, ih, List.length_cons, Nat.ofDigits_cons]
    ring_nf
    omega

theorem natToDec_digits (n : Nat) : ∀ c ∈ natToDec n, 48 ≤ c ∧ c ≤ 57 := by
  intro c hc
  unfold natToDec at hc
  by_cases h : n = 0
  · simp [h] at hc
    omega
  · rw [if_neg h] at hc
    simp only [List.mem_map, List.mem_reverse] at hc
    obtain ⟨d, hd, rfl⟩ := hc
    have := decDigitsAux_lt10 n n d hd
    omega

theorem sscanfDec_natToDec (n : Nat) : sscanfDec (natToDec n) = n := by
  by_cases h : n = 0
  · subst h; rfl
  · unfold sscanfDec
    have hall : ∀ c ∈ natToDec n, (decide (48 ≤ c) && decide (c ≤ 57)) = true := by
      intro c hc
      have := natToDec_digits n c hc
      simp
      omega
    rw [List.takeWhile_eq_self_iff.mpr hall]
    unfold natToDec
    rw [if_neg h, foldl_digits, ofDigits_decDigitsAux n n le_rfl]
    simp

theorem shiftLeft8_lor (a b : Nat) (h : b < 256) : a <<< 8 ||| b = 256 * a + b := by
  have h2 : b < 2 ^ 8 := by omega
  rw [Nat.shiftLeft_eq, Nat.mul_comm, ← Nat.mul_add_lt_is_or h2 a]

theorem readN_exact (n : Nat) (l s : List Nat) (h : l.length = n) :
    readN n (l ++ s) = some (l, s) := by
  unfold readN
  rw [if_pos (by rw [List.length_append]; omega), List.take_left' h, List.drop_left' h]

theorem readN_two (a b : Nat) (s : List Nat) : readN 2 (a :: b :: s) = some ([a, b], s) := by
  unfold readN
  rw [if_pos (by simp)]
  simp

theorem handleRequest_ipv4 (cmd rsv a b c d p1 p2 : Nat) (rest : List Nat)
    (_hp1 : p1 < 256) (hp2 : p2 < 256) :
    handleRequest ([5, cmd, rsv, 1, a, b, c, d, p1, p2] ++ rest)
      = (some (natToDec a ++ [46] ++ natToDec b ++ [46] ++ natToDec c ++ [46] ++ natToDec d
               ++ [58] ++ natToDec (256 * p1 + p2), rest),
         [5, 0, 0, 1, 0, 0, 0, 0, 0, 0]) := by
  have hsplit : [5, cmd, rsv, 1, a, b, c, d, p1, p2] ++ rest
      = [5, cmd, rsv, 1] ++ ([a, b, c, d] ++ ([p1, p2] ++ rest)) := by simp
  rw [hsplit]
  simp only [handleRequest, readN_exact 4 [5, cmd, rsv, 1] _ rfl,
    readN_exact 4 [a, b, c, d] _ rfl,
    List.getD_cons_zero, List.getD_cons_succ]
  norm_num [ipString, ipv4Dotted, readN_two, shiftLeft8_lor p1 p2 hp2]

theorem handleRequest_domain (cmd rsv p1 p2 : Nat) (domain rest : List Nat)
    (_hp1 : p1 < 256) (hp2 : p2 < 256) (_hdl : domain.length < 256) :
    handleRequest ([5, cmd, rsv, 3, domain.length] ++ domain ++ [p1, p2] ++ rest)
      = (some (domain ++ [58] ++ natToDec (256 * p1 + p2), rest),
         [5, 0, 0, 1, 0, 0, 0, 0, 0, 0]) := by
  have hsplit : [5, cmd, rsv, 3, domain.length] ++ domain ++ [p1, p2] ++ rest
      = [5, cmd, rsv, 3] ++ ([domain.length] ++ (domain ++ ([p1, p2] ++ rest))) := by simp
  rw [hsplit]
  simp only [handleRequest, readN_exact 4 [5, cmd, rsv, 3] _ rfl,
    readN_exact 1 [domain.length] _ rfl,
    readN_exact domain.length domain _ rfl,
    List.getD_cons_zero, List.getD_cons_succ]
  norm_num [readN_two, shiftLeft8_lor p1 p2 hp2]

theorem readN_four (a b c d : Nat) (s : List Nat) :
    readN 4 (a :: b :: c :: d :: s) = some ([a, b, c, d], s) := by
  unfold readN
  rw [if_pos (by simp)]
  simp

theorem handshake_bad_version (s : List Nat) (h : s.getD 0 0 ≠ 5) :
    handleInitialHandshake s = (none, []) := by
  rcases s with _ | ⟨x, _ | ⟨y, t⟩⟩
  · simp [handleInitialHandshake, readN]
  · simp [handleInitialHandshake, readN]
  · simp only [List.getD_cons_zero] at h
    simp [handleInitialHandshake, readN_two, h]

theorem request_bad_version (s : List Nat) (h : s.getD 0 0 ≠ 5) :
    handleRequest s = (none, []) := by
  rcases s with _ | ⟨x, _ | ⟨y, _ | ⟨z, _ | ⟨w, t⟩⟩⟩⟩
  · simp [handleRequest, readN]
  · simp [handleRequest, readN]
  · simp [handleRequest, readN]
  · simp [handleRequest, readN]
  · simp only [List.getD_cons_zero] at h
    simp [handleRequest, readN_four, h]

theorem request_bad_addrtype (cmd rsv atyp : Nat) (t : List Nat)
    (h1 : atyp ≠ 1) (h3 : atyp ≠ 3) (h4 : atyp ≠ 4) :
    handleRequest (5 :: cmd :: rsv :: atyp :: t) = (none, []) := by
  simp only [handleRequest, readN_four]
  rcases atyp with _ | _ | _ | _ | _ | n
  · simp
  · exact absurd rfl h1
  · simp
  · exact absurd rfl h3
  · exact absurd rfl h4
  · simp

theorem upstream_reply_ignored (cfg : Config) (m1 m2 n1 n2 : Nat) (tail : List Nat) :
    connectToUpstream cfg (m1 :: m2 :: tail) = connectToUpstream cfg (n1 :: n2 :: tail) := by
  simp [connectToUpstream, readN_two]

theorem splitHostPort_colon_digits (ds : List Nat)
    (hds : ∀ c ∈ ds, 48 ≤ c ∧ c ≤ 57) :
    splitHostPort (58 :: ds) = some ([], ds) := by
  have hfind : ((58 :: ds).reverse).findIdx? (fun b => b = 58) = some ds.length := by
    rw [List.reverse_cons, List.findIdx?_append]
    have hnone : (ds.reverse).findIdx? (fun b => decide (b = 58)) = none := by
      rw [List.findIdx?_eq_none_iff]
      intro x hx
      have := hds x (List.mem_reverse.mp hx)
      simp
      omega
    rw [hnone]
    simp [List.findIdx?_cons]
  have hno91 : ¬ (91 ∈ 58 :: ds) := by
    simp only [List.mem_cons]
    rintro (h | h)
    · omega
    · have := hds _ h; omega
  have hno93 : ¬ (93 ∈ 58 :: ds) := by
    simp only [List.mem_cons]
    rintro (h | h)
    · omega
    · have := hds _ h; omega
  unfold splitHostPort
  rw [hfind]
  simp only [List.length_cons, List.getD_cons_zero]
  have hi : ds.length + 1 - 1 - ds.length = 0 := by omega
  rw [hi]
  norm_num
  constructor
  · intro hmem
    exact hno91 (List.mem_cons_of_mem _ hmem)
  · intro hmem
    exact absurd (List.mem_cons_of_mem _ hmem) hno93

theorem forwardRequest_snd (target host port ups : List Nat)
    (h : splitHostPort target = some (host, port)) :
    (forwardRequest target ups).2
      = [5, 1, 0, 3] ++ [toByte host.length] ++ host ++
        [toByte (sscanfDec port >>> 8), toByte (sscanfDec port &&& 255)] := by
  unfold forwardRequest
  rw [h]
  rcases readN 10 ups with _ | ⟨resp, rem⟩
  · rfl
  · simp only []
    split <;> rfl

theorem zero_length_domain_flow (cmd rsv p1 p2 : Nat) (rest ups : List Nat)
    (hp1 : p1 < 256) (hp2 : p2 < 256) :
    handleRequest ([5, cmd, rsv, 3, 0] ++ ([p1, p2] ++ rest))
      = (some ([58] ++ natToDec (256 * p1 + p2), rest), [5, 0, 0, 1, 0, 0, 0, 0, 0, 0]) ∧
    (forwardRequest ([58] ++ natToDec (256 * p1 + p2)) ups).2
      = [5, 1, 0, 3, 0, p1, p2] := by
  constructor
  · have h := handleRequest_domain cmd rsv p1 p2 [] rest hp1 hp2 (by simp)
    simpa using h
  · have hsplit : splitHostPort ([58] ++ natToDec (256 * p1 + p2))
        = some ([], natToDec (256 * p1 + p2)) := by
      rw [List.singleton_append]
      exact splitHostPort_colon_digits _ (natToDec_digits _)
    rw [forwardRequest_snd _ _ _ ups hsplit, sscanfDec_natToDec]
    have e1 : (256 * p1 + p2) >>> 8 = p1 := by
      rw [Nat.shiftRight_eq_div_pow]
      norm_num
      omega
    have e2 : (256 * p1 + p2) &&& 255 = p2 := by
      have h8 := Nat.and_pow_two_sub_one_eq_mod (256 * p1 + p2) 8
      norm_num at h8
      omega
    rw [e1, e2]
    simp [toByte]
    omega


/-! ### Supporting lemmas: configuration resolution -/

theorem loadOrCreate_passphrase_required (fs : FsState) (enc u p uh : List Nat)
    (up : Int) (nonce : List Nat) (hcreds : fs.creds = some enc) :
    LoadOrCreate fs u p [] uh up nonce = Except.error CfgError.encryptionPasswordRequired := by
  unfold LoadOrCreate loadCreds
  rw [hcreds]
  simp

theorem validateAndSave_ok_valid (fs : FsState) (e nonce : List Nat) (c cfg : Config)
    (fs2 : FsState) (h : validateAndSave fs e nonce c = Except.ok (cfg, fs2)) :
    cfg.upstreamHost ≠ [] ∧ cfg.upstreamPort ≠ 0 ∧ cfg.username ≠ [] ∧ cfg.password ≠ [] := by
  by_cases h1 : c.upstreamHost = [] ∨ c.upstreamPort = 0
  · unfold validateAndSave at h
    rw [if_pos h1] at h
    exact absurd h (by simp)
  by_cases h2 : c.username = [] ∨ c.password = []
  · unfold validateAndSave at h
    rw [if_neg h1, if_pos h2] at h
    exact absurd h (by simp)
  have hc : c = cfg := by
    unfold validateAndSave at h
    rw [if_neg h1, if_neg h2] at h
    simp only [Except.ok.injEq, Prod.mk.injEq] at h
    exact h.1
  subst hc
  push_neg at h1 h2
  exact ⟨h1.1, h1.2, h2.1, h2.2⟩

theorem loadOrCreate_ok_valid (fs : FsState) (u p e uh : List Nat) (up : Int)
    (nonce : List Nat) (cfg : Config) (fs2 : FsState)
    (h : LoadOrCreate fs u p e uh up nonce = Except.ok (cfg, fs2)) :
    cfg.upstreamHost ≠ [] ∧ cfg.upstreamPort ≠ 0 ∧ cfg.username ≠ [] ∧ cfg.password ≠ [] := by
  unfold LoadOrCreate at h
  rcases hlc : loadCreds fs e with e0 | cfg0 <;> rw [hlc] at h
  · simp at h
  simp only [] at h
  rcases hm : mergeHostRecord fs cfg0 with e1 | cfg1 <;> rw [hm] at h
  · simp at h
  simp only [applyOverridesAndSave] at h
  exact validateAndSave_ok_valid fs e nonce _ cfg fs2 h

theorem loadOrCreate_port_70000 :
    LoadOrCreate ⟨none, none⟩ [117] [112] [] [104] 70000 []
      = Except.ok (⟨[117], [112], [104], 70000⟩, ⟨none, some (some ⟨[104], 70000⟩)⟩)
    ∧ ¬ ((1 : Int) ≤ 70000 ∧ (70000 : Int) ≤ 65535) := by
  constructor
  · rfl
  · decide


/-! ### The claims -/

/-- Claim C1: for every byte sequence `data` and passphrase `pw1` (with the
random nonce made explicit), `decrypt (encrypt data pw1) pw1` returns
`data`, and for a distinct passphrase `pw2`, decryption fails with an error
rather than returning data. -/
theorem decrypt_encrypt_roundtrip (data pw1 pw2 nonce : List Nat)
    (hdata : IsBytes data) (hpw1 : IsBytes pw1)
    (hl1 : pw1.length < 256 ^ 8) (hl2 : pw2.length < 256 ^ 8)
    (hn : nonce.length = nonceSize) (hnb : IsBytes nonce) :
    decrypt (encrypt data pw1 nonce) pw1 = some data ∧
    (pw1 ≠ pw2 → decrypt (encrypt data pw1 nonce) pw2 = none) := by
  have hblob : IsBytes (nonce ++ gcmSeal (sha256Key pw1) nonce data) := by
    rw [isBytes_append]
    refine ⟨hnb, ?_⟩
    rw [show gcmSeal (sha256Key pw1) nonce data = gcmTag (sha256Key pw1) nonce ++ data from rfl,
        isBytes_append]
    refine ⟨?_, hdata⟩
    rw [show gcmTag (sha256Key pw1) nonce
          = lenEnc 8 (sha256Key pw1).length ++ (sha256Key pw1 ++ nonce) by simp [gcmTag]]
    rw [isBytes_append]
    exact ⟨isBytes_lenEnc _ _, (isBytes_append).mpr ⟨hpw1, hnb⟩⟩
  have hdec : base64decode (encrypt data pw1 nonce) =
      some (nonce ++ gcmSeal (sha256Key pw1) nonce data) :=
    base64_roundtrip _ hblob
  have hlen : ¬ ((nonce ++ gcmSeal (sha256Key pw1) nonce data).length < nonceSize) := by
    simp [hn]
  constructor
  · simp only [decrypt, hdec, if_neg hlen]
    rw [List.take_left' hn, List.drop_left' hn]
    exact gcmOpen_gcmSeal _ _ _
  · intro hne
    simp only [decrypt, hdec, if_neg hlen]
    rw [List.take_left' hn, List.drop_left' hn]
    exact gcmOpen_wrong_key pw1 pw2 nonce data hne hl1 hl2

theorem decrypt_encrypt_roundtrip_witness :
    decrypt (encrypt [104, 105] [97] (List.replicate 12 7)) [97] = some [104, 105] ∧
    decrypt (encrypt [104, 105] [97] (List.replicate 12 7)) [98] = none := by
  have h := decrypt_encrypt_roundtrip [104, 105] [97] [98] (List.replicate 12 7)
    (by decide) (by decide) (by norm_num) (by norm_num) (by decide) (by decide)
  exact ⟨h.1, h.2 (by decide)⟩

/-- Claim C2 (code bug): the request `{5,1,0,4}` with the IPv6 address `::1`
and port 443 is parsed and answered with the success reply, but the recorded
target is the bracketless string `"::1:443"` (bytes 58,58,49,58,52,52,51),
which `net.SplitHostPort` rejects, so `forwardRequest` fails without sending
any CONNECT request upstream. -/
theorem ipv6_target_not_splittable :
    handleRequest ([5, 1, 0, 4] ++ (List.replicate 15 0 ++ [1]) ++ [1, 187])
      = (some ([58, 58, 49, 58, 52, 52, 51], []), [5, 0, 0, 1, 0, 0, 0, 0, 0, 0])
    ∧ splitHostPort [58, 58, 49, 58, 52, 52, 51] = none
    ∧ forwardRequest [58, 58, 49, 58, 52, 52, 51] [] = (none, []) := by
  refine ⟨by decide, by decide, by decide⟩

/-- Claim C3: whenever the encrypted credential record exists on disk and the
passphrase argument is empty, `LoadOrCreate` returns the distinguished
"passphrase required" error, regardless of the other supplied arguments. -/
theorem empty_passphrase_distinguished_error (fs : FsState) (enc u p uh : List Nat)
    (up : Int) (nonce : List Nat) (hcreds : fs.creds = some enc) :
    LoadOrCreate fs u p [] uh up nonce = Except.error CfgError.encryptionPasswordRequired := by
  unfold LoadOrCreate loadCreds
  rw [hcreds]
  simp

theorem empty_passphrase_distinguished_error_witness :
    LoadOrCreate ⟨some [1, 2, 3], none⟩ [117] [112] [] [104] 1080 []
      = Except.error CfgError.encryptionPasswordRequired :=
  empty_passphrase_distinguished_error ⟨some [1, 2, 3], none⟩ [1, 2, 3] [117] [112] [104] 1080 [] rfl

/-- Claim C4, counterexample: `LoadOrCreate` accepts upstream port 70000
(outside 1–65535) and returns it in the resolved configuration, because the
source only checks `UpstreamPort != 0`. -/
theorem port_range_not_enforced :
    LoadOrCreate ⟨none, none⟩ [117] [112] [] [104] 70000 []
      = Except.ok (⟨[117], [112], [104], 70000⟩, ⟨none, some (some ⟨[104], 70000⟩)⟩)
    ∧ ¬ ((1 : Int) ≤ 70000 ∧ (70000 : Int) ≤ 65535) := by
  constructor
  · rfl
  · decide

/-- Claim C4 (amended): every configuration successfully returned by
`LoadOrCreate` has a non-empty upstream host, username and password and a
non-zero upstream port; the port range 1–65535 is not enforced. -/
theorem resolved_config_fields_nonempty (fs : FsState) (u p e uh : List Nat) (up : Int)
    (nonce : List Nat) (cfg : Config) (fs2 : FsState)
    (h : LoadOrCreate fs u p e uh up nonce = Except.ok (cfg, fs2)) :
    cfg.upstreamHost ≠ [] ∧ cfg.upstreamPort ≠ 0 ∧ cfg.username ≠ [] ∧ cfg.password ≠ [] := by
  unfold LoadOrCreate at h
  rcases hlc : loadCreds fs e with e0 | cfg0 <;> rw [hlc] at h
  · simp at h
  simp only [] at h
  rcases hm : mergeHostRecord fs cfg0 with e1 | cfg1 <;> rw [hm] at h
  · simp at h
  simp only [applyOverridesAndSave] at h
  exact validateAndSave_ok_valid fs e nonce _ cfg fs2 h

theorem resolved_config_fields_nonempty_witness :
    ([104] : List Nat) ≠ [] ∧ (1080 : Int) ≠ 0 ∧ ([117] : List Nat) ≠ [] ∧ ([112] : List Nat) ≠ [] := by
  have h := resolved_config_fields_nonempty ⟨none, none⟩ [117] [112] [] [104] 1080 []
    ⟨[117], [112], [104], 1080⟩ ⟨none, some (some ⟨[104], 1080⟩)⟩ rfl
  exact ⟨h.1, h.2.1, h.2.2.1, h.2.2.2⟩


set_option maxRecDepth 4096 in
/-- Claim C5 (code bug): with a 256-byte username, `connectToUpstream` does
not reject the configuration; it writes an RFC 1929 sub-negotiation whose
username-length byte is `byte(256) = 0` while still appending all 256
username bytes, and proceeds to report success when the upstream accepts. -/
theorem oversized_username_not_rejected :
    (connectToUpstream ⟨List.replicate 256 97, [112], [104], 1080⟩ [0, 2, 1, 0]).1 = some ()
    ∧ (connectToUpstream ⟨List.replicate 256 97, [112], [104], 1080⟩ [0, 2, 1, 0]).2
        = [5, 1, 2] ++ (1 :: 0 :: (List.replicate 256 97 ++ 1 :: [112]))
    ∧ (List.replicate 256 97).length = 256 := by
  refine ⟨by decide, by decide, by decide⟩

/-- Claim C6: an address-type-1 request resolves to the dotted-decimal IPv4
target joined with the big-endian port, an address-type-3 request resolves
to the length-prefixed hostname joined with the port, and in both cases the
10-byte success reply `{5,0,0,1,0,0,0,0,0,0}` is written to the client. -/
theorem request_targets_and_reply :
    (∀ cmd rsv a b c d p1 p2 rest, p1 < 256 → p2 < 256 →
      handleRequest ([5, cmd, rsv, 1, a, b, c, d, p1, p2] ++ rest)
        = (some (natToDec a ++ [46] ++ natToDec b ++ [46] ++ natToDec c ++ [46] ++ natToDec d
                 ++ [58] ++ natToDec (256 * p1 + p2), rest),
           [5, 0, 0, 1, 0, 0, 0, 0, 0, 0])) ∧
    (∀ cmd rsv p1 p2 domain rest, p1 < 256 → p2 < 256 → domain.length < 256 →
      handleRequest ([5, cmd, rsv, 3, domain.length] ++ domain ++ [p1, p2] ++ rest)
        = (some (domain ++ [58] ++ natToDec (256 * p1 + p2), rest),
           [5, 0, 0, 1, 0, 0, 0, 0, 0, 0])) :=
  ⟨fun cmd rsv a b c d p1 p2 rest hp1 hp2 =>
      handleRequest_ipv4 cmd rsv a b c d p1 p2 rest hp1 hp2,
   fun cmd rsv p1 p2 domain rest hp1 hp2 hd =>
      handleRequest_domain cmd rsv p1 p2 domain rest hp1 hp2 hd⟩

theorem request_targets_and_reply_witness :
    handleRequest [5, 1, 0, 1, 192, 168, 1, 1, 0, 80]
      = (some ([49, 57, 50, 46, 49, 54, 56, 46, 49, 46, 49, 58, 56, 48], []),
         [5, 0, 0, 1, 0, 0, 0, 0, 0, 0]) ∧
    handleRequest [5, 1, 0, 3, 11, 101, 120, 97, 109, 112, 108, 101, 46, 99, 111, 109, 1, 187]
      = (some ([101, 120, 97, 109, 112, 108, 101, 46, 99, 111, 109, 58, 52, 52, 51], []),
         [5, 0, 0, 1, 0, 0, 0, 0, 0, 0]) := by
  constructor
  · have h := request_targets_and_reply.1 1 0 192 168 1 1 0 80 [] (by decide) (by decide)
    rw [show ([5, 1, 0, 1, 192, 168, 1, 1, 0, 80] : List Nat)
          = [5, 1, 0, 1, 192, 168, 1, 1, 0, 80] ++ [] from rfl, h]
    decide
  · have h := request_targets_and_reply.2 1 0 1 187
      [101, 120, 97, 109, 112, 108, 101, 46, 99, 111, 109] [] (by decide) (by decide) (by decide)
    rw [show ([5, 1, 0, 3, 11, 101, 120, 97, 109, 112, 108, 101, 46, 99, 111, 109, 1, 187] : List Nat)
          = [5, 1, 0, 3, ([101, 120, 97, 109, 112, 108, 101, 46, 99, 111, 109] : List Nat).length]
            ++ [101, 120, 97, 109, 112, 108, 101, 46, 99, 111, 109] ++ [1, 187] ++ [] from rfl, h]
    decide

/-- Claim C7: a version byte other than 5 makes the handshake phase and the
request phase fail with nothing written, and an unsupported address type
(neither 1, 3 nor 4) makes the request phase fail with nothing written — in
particular the 10-byte success reply is never sent in any of these cases. -/
theorem bad_version_or_addrtype_fails :
    (∀ s, s.getD 0 0 ≠ 5 → handleInitialHandshake s = (none, [])) ∧
    (∀ s, s.getD 0 0 ≠ 5 → handleRequest s = (none, [])) ∧
    (∀ cmd rsv atyp t, atyp ≠ 1 → atyp ≠ 3 → atyp ≠ 4 →
      handleRequest (5 :: cmd :: rsv :: atyp :: t) = (none, [])) :=
  ⟨fun s h => handshake_bad_version s h,
   fun s h => request_bad_version s h,
   fun cmd rsv atyp t h1 h3 h4 => request_bad_addrtype cmd rsv atyp t h1 h3 h4⟩

theorem bad_version_or_addrtype_fails_witness :
    handleInitialHandshake [4, 1, 0] = (none, []) ∧
    handleRequest [4, 1, 0, 1, 1, 2, 3, 4, 0, 80] = (none, []) ∧
    handleRequest [5, 1, 0, 9, 1, 2] = (none, []) :=
  ⟨bad_version_or_addrtype_fails.1 [4, 1, 0] (by decide),
   bad_version_or_addrtype_fails.2.1 [4, 1, 0, 1, 1, 2, 3, 4, 0, 80] (by decide),
   bad_version_or_addrtype_fails.2.2 1 0 9 [1, 2] (by decide) (by decide) (by decide)⟩

/-- Claim C8: `decrypt` returns an error (modelled as `none`, and it is a
total function, so it cannot panic) whenever the input is not valid base64,
whenever the decoded data is shorter than one GCM nonce, and whenever the
authentication tag does not verify under the given passphrase. -/
theorem decrypt_rejects_bad_inputs (enc pw : List Nat) :
    (base64decode enc = none → decrypt enc pw = none) ∧
    (∀ data, base64decode enc = some data → data.length < nonceSize →
      decrypt enc pw = none) ∧
    (∀ data, base64decode enc = some data → nonceSize ≤ data.length →
      gcmOpen (sha256Key pw) (data.take nonceSize) (data.drop nonceSize) = none →
      decrypt enc pw = none) := by
  refine ⟨?_, ?_, ?_⟩
  · intro h
    simp [decrypt, h]
  · intro data h hlt
    simp [decrypt, h, hlt]
  · intro data h hge hopen
    simp [decrypt, h, Nat.not_lt.mpr hge, hopen]

theorem decrypt_rejects_bad_inputs_witness :
    decrypt [33] [] = none ∧
    decrypt (base64encode [1, 2, 3]) [] = none ∧
    decrypt (base64encode (List.replicate 12 0 ++ [9])) [97] = none :=
  ⟨(decrypt_rejects_bad_inputs [33] []).1 (by decide),
   (decrypt_rejects_bad_inputs (base64encode [1, 2, 3]) []).2.1 [1, 2, 3] (by decide) (by decide),
   (decrypt_rejects_bad_inputs (base64encode (List.replicate 12 0 ++ [9])) [97]).2.2
     (List.replicate 12 0 ++ [9]) (by decide) (by decide) (by decide)⟩

/-- Claim C9: `connectToUpstream` never inspects the 2-byte method-selection
reply it reads from the upstream — for any two values of those bytes its
result and everything it writes are identical. -/
theorem method_selection_reply_ignored (cfg : Config) (m1 m2 n1 n2 : Nat) (tail : List Nat) :
    connectToUpstream cfg (m1 :: m2 :: tail) = connectToUpstream cfg (n1 :: n2 :: tail) := by
  simp [connectToUpstream, readN_two]

/-- Claim C10: a domain request with length byte 0 is accepted: the target
is `":<port>"` with an empty hostname, the 10-byte success reply is written,
and `forwardRequest` sends the upstream CONNECT request with a zero-length
domain field. -/
theorem zero_length_domain_accepted (cmd rsv p1 p2 : Nat) (rest ups : List Nat)
    (hp1 : p1 < 256) (hp2 : p2 < 256) :
    handleRequest ([5, cmd, rsv, 3, 0] ++ ([p1, p2] ++ rest))
      = (some ([58] ++ natToDec (256 * p1 + p2), rest), [5, 0, 0, 1, 0, 0, 0, 0, 0, 0]) ∧
    (forwardRequest ([58] ++ natToDec (256 * p1 + p2)) ups).2
      = [5, 1, 0, 3, 0, p1, p2] :=
  zero_length_domain_flow cmd rsv p1 p2 rest ups hp1 hp2

theorem zero_length_domain_accepted_witness :
    handleRequest [5, 1, 0, 3, 0, 0, 80]
      = (some ([58, 56, 48], []), [5, 0, 0, 1, 0, 0, 0, 0, 0, 0]) ∧
    (forwardRequest [58, 56, 48] []).2 = [5, 1, 0, 3, 0, 0, 80] := by
  have h := zero_length_domain_accepted 1 0 0 80 [] [] (by decide) (by decide)
  constructor
  · have h1 := h.1
    rw [show ([5, 1, 0, 3, 0] ++ ([0, 80] ++ ([] : List Nat))) = [5, 1, 0, 3, 0, 0, 80] from rfl] at h1
    rw [h1]
    decide
  · have h2 := h.2
    rw [show ([58] ++ natToDec (256 * 0 + 80)) = [58, 56, 48] by decide] at h2
    exact h2

end Socks5Chain